import Mathlib

/-!
Verification of the dispatch simulation environment of
`src/environment/power_env.py` (class `PowerGridEnvironment`).

The Python code is shallowly embedded: numpy float arrays become `List ℚ`
(the observation vector, which contains `sin`/`cos` time features, becomes
`List ℝ`), a raised Python exception becomes an `Except PyError` result, and
the mutation of `self.current_step` / `self.current_output` becomes explicit
state passing on `GridState`.  A second, four-point float model `F`
(finite / NaN / +Inf / -Inf) is used for the claims about non-finite action
entries, with numpy's NaN-propagation semantics for `maximum`/`minimum`
(hence `np.clip`), arithmetic and comparisons.
-/

namespace PowerGrid

/-- Python exceptions that the embedded code paths can raise:
`IndexError` from indexing past the end of `load_data`, `ValueError` from
`np.random.randint` with an empty range, from numpy broadcasting failures,
and from `np.max` of an empty array. -/
inductive PyError where
  | indexError
  | valueError
deriving DecidableEq

/-- The `mode` constructor argument (`'train'`, `'val'` or `'test'`). -/
inductive Mode where
  | train
  | val
  | test
deriving DecidableEq

/-- The `reward_weights` mapping (keys `generation_cost`, `supply_demand_gap`,
`ramping_penalty`, `overload_penalty`). -/
structure RewardWeights where
  generation_cost : ℚ
  supply_demand_gap : ℚ
  ramping_penalty : ℚ
  overload_penalty : ℚ
deriving DecidableEq

/-- The default weights substituted by `self.config.get('reward_weights', {...})`
in `__init__` (power_env.py lines 48-53). -/
def defaultRewardWeights : RewardWeights :=
  { generation_cost := 1
    supply_demand_gap := 10
    ramping_penalty := 1 / 10
    overload_penalty := 50 }

/-- The `config['environment']` sub-dictionary.  The required keys are typed
fields; `reward_weights` is an `Option` because `__init__` reads it with
`.get` and a default, so its absence does not fail. -/
structure EnvSection where
  num_generators : ℕ
  generator_capacities : List ℚ
  generator_costs : List ℚ
  max_ramping : ℚ
  reward_weights : Option RewardWeights

/-- The configuration dictionary passed to the constructor; `__init__` only
reads `config['environment']`. -/
structure Config where
  environment : EnvSection

/-- The fields of `PowerGridEnvironment` that are set in `__init__` and never
written afterwards. -/
structure PowerGridEnv where
  load_data : List ℚ
  num_generators : ℕ
  capacities : List ℚ
  costs : List ℚ
  max_ramping : ℚ
  reward_weights : RewardWeights
  mode : Mode
  obs_dim : ℕ
  max_steps : ℤ

/-- The mutable simulation state: `self.current_step` and
`self.current_output`. -/
structure GridState where
  current_step : ℕ
  current_output : List ℚ
deriving DecidableEq

/-- `PowerGridEnvironment.__init__` (lines 26-77): stores the data and the
configuration, resolves `reward_weights` with the coded default, sets
`obs_dim = 1 + N + 4 + 2`, `max_steps = len(load_data) - 5`, and initializes
`current_step = 0`, `current_output = np.zeros(num_generators)`. -/
def mkPowerGridEnvironment (load_data : List ℚ) (config : Config) (mode : Mode) :
    PowerGridEnv × GridState :=
  let c := config.environment
  ({ load_data := load_data
     num_generators := c.num_generators
     capacities := c.generator_capacities
     costs := c.generator_costs
     max_ramping := c.max_ramping
     reward_weights := c.reward_weights.getD defaultRewardWeights
     mode := mode
     obs_dim := 1 + c.num_generators + 4 + 2
     max_steps := (load_data.length : ℤ) - 5 },
   { current_step := 0
     current_output := List.replicate c.num_generators 0 })

/-- Scalar `np.clip`: `min(max(x, lo), hi)`. -/
def clip (x lo hi : ℚ) : ℚ := min (max x lo) hi

/-- Python sequence indexing `l[i]` for a non-negative index: `IndexError`
when `i` is out of range. -/
def getItem (l : List ℚ) (i : ℕ) : Except PyError ℚ :=
  match l.get? i with
  | some x => .ok x
  | none => .error .indexError

/-- Python indexing `l[-1]`: the last element, `IndexError` on an empty
sequence. -/
def lastItem (l : List ℚ) : Except PyError ℚ :=
  match l.getLast? with
  | some x => .ok x
  | none => .error .indexError

/-- `np.max` over a 1-d array: `ValueError` on an empty array. -/
def npMax (l : List ℚ) : Except PyError ℚ :=
  match l with
  | [] => .error .valueError
  | x :: xs => .ok (xs.foldl max x)

/-- `PowerGridEnvironment._get_observation` (lines 159-199).  The
concatenated vector is `norm_load ++ norm_output ++ norm_forecast ++
time_features`; the time features use `sin`/`cos`, so the result lives in
`ℝ`. -/
noncomputable def PowerGridEnv.getObservation (env : PowerGridEnv) (s : GridState) :
    Except PyError (List ℝ) :=
  match getItem env.load_data s.current_step with
  | .error e => .error e
  | .ok current_load =>
    let n := env.load_data.length
    let forecast_steps := 4
    let forecastE : Except PyError (List ℚ) :=
      if s.current_step + 1 + forecast_steps > n then
        let remaining := n - (s.current_step + 1)
        let forecast := env.load_data.drop (s.current_step + 1)
        if remaining < forecast_steps then
          match lastItem env.load_data with
          | .error e => .error e
          | .ok lastLoad => .ok (forecast ++ List.replicate (forecast_steps - remaining) lastLoad)
        else .ok forecast
      else .ok ((env.load_data.drop (s.current_step + 1)).take forecast_steps)
    match forecastE with
    | .error e => .error e
    | .ok forecast =>
      match npMax env.capacities with
      | .error e => .error e
      | .ok maxCap =>
        let hour : ℕ := s.current_step % 24
        let time_features : List ℝ :=
          [Real.sin (2 * Real.pi * (hour : ℝ) / 24),
           Real.cos (2 * Real.pi * (hour : ℝ) / 24)]
        let norm_load : List ℝ := [(current_load : ℝ) / 10000]
        let norm_output : List ℝ := s.current_output.map (fun x => (x : ℝ) / (maxCap : ℝ))
        let norm_forecast : List ℝ := forecast.map (fun x => (x : ℝ) / 10000)
        .ok (norm_load ++ norm_output ++ norm_forecast ++ time_features)

/-- The components stored in the `info` dictionary built by
`_calculate_reward` (lines 231-237). -/
structure RewardInfo where
  step_reward : ℚ
  cost : ℚ
  gap : ℚ
  ramping : ℚ
  overload : ℚ
deriving DecidableEq

/-- `PowerGridEnvironment._calculate_reward` (lines 201-239), abstracted over
the weights and the cost vector it reads from `self`; `current_output` is the
post-clamp output vector that the method reads from `self.current_output`. -/
def calculateRewardCore (w : RewardWeights) (costs : List ℚ) (load generation : ℚ)
    (adjustments current_output : List ℚ) : ℚ × RewardInfo :=
  let op_cost := (List.zipWith (· * ·) current_output costs).sum
  let gap := |generation - load|
  let ramping_cost := (adjustments.map (fun a => |a|)).sum
  let overload : ℚ := if gap > (1 / 10) * load then gap * 2 else 0
  let reward :=
    -(w.generation_cost * (op_cost / 10000) +
      w.supply_demand_gap * (gap / 1000) +
      w.ramping_penalty * (ramping_cost / 100) +
      w.overload_penalty * (overload / 1000))
  (reward,
   { step_reward := reward
     cost := op_cost
     gap := gap
     ramping := ramping_cost
     overload := overload })

/-- `self._calculate_reward(...)`: the method reads `self.reward_weights`,
`self.costs` and `self.current_output`. -/
def PowerGridEnv.calculateReward (env : PowerGridEnv) (load generation : ℚ)
    (adjustments current_output : List ℚ) : ℚ × RewardInfo :=
  calculateRewardCore env.reward_weights env.costs load generation adjustments current_output

/-- Lines 124-127 of `step`: `action = np.clip(action, -1.0, 1.0)` followed by
`adjustments = action * self.max_ramping`. -/
def stepAdjustments (env : PowerGridEnv) (action : List ℚ) : List ℚ :=
  (action.map (fun a => clip a (-1) 1)).map (fun a => a * env.max_ramping)

/-- The in-place numpy addition `self.current_output += adjustments`
(line 128): elementwise when the shapes agree, silent broadcasting when
`adjustments` is a length-1 array, and a broadcasting `ValueError`
otherwise (the in-place target cannot grow). -/
def broadcastAddInPlace (out adjustments : List ℚ) : Except PyError (List ℚ) :=
  if out.length = adjustments.length then .ok (List.zipWith (· + ·) out adjustments)
  else
    match adjustments with
    | [a] => .ok (out.map (fun x => x + a))
    | _ => .error .valueError

/-- Line 131: `np.clip(self.current_output, 0, self.capacities)` with numpy's
out-of-place broadcasting between the output vector and the capacity
array. -/
def clipToCapacities (out caps : List ℚ) : Except PyError (List ℚ) :=
  if out.length = caps.length then
    .ok (List.zipWith (fun x c => clip x 0 c) out caps)
  else
    match caps with
    | [c] => .ok (out.map (fun x => clip x 0 c))
    | _ =>
      match out with
      | [x] => .ok (caps.map (fun c => clip x 0 c))
      | _ => .error .valueError

/-- The `info` dictionary returned by `step` (lines 149-155): keys `load`,
`generation`, `cost`, `gap`, and the merged-in `reward_info` keys
`step_reward`, `ramping`, `overload`. -/
structure StepInfo where
  load : ℚ
  generation : ℚ
  cost : ℚ
  gap : ℚ
  step_reward : ℚ
  ramping : ℚ
  overload : ℚ
deriving DecidableEq

/-- The 5-tuple returned by `step`, together with the post-call simulation
state. -/
structure StepResult where
  observation : List ℝ
  reward : ℚ
  terminated : Bool
  truncated : Bool
  info : StepInfo
  state : GridState

/-- `PowerGridEnvironment.step` (lines 108-157): clip the action, scale by
`max_ramping`, add to the outputs in place, clamp to `[0, capacities]`, read
the demand sample, compute the reward, advance `current_step`, set
`terminated = False` and `truncated = current_step >= max_steps`, and build
the next observation and the info record. -/
noncomputable def PowerGridEnv.step (env : PowerGridEnv) (s : GridState) (action : List ℚ) :
    Except PyError StepResult :=
  let adjustments := stepAdjustments env action
  match broadcastAddInPlace s.current_output adjustments with
  | .error e => .error e
  | .ok raw =>
    match clipToCapacities raw env.capacities with
    | .error e => .error e
    | .ok newOutput =>
      match getItem env.load_data s.current_step with
      | .error e => .error e
      | .ok current_load =>
        let total_generation := newOutput.sum
        let r := env.calculateReward current_load total_generation adjustments newOutput
        let nextStep := s.current_step + 1
        let terminated := false
        let truncated := decide ((nextStep : ℤ) ≥ env.max_steps)
        let s' : GridState := { current_step := nextStep, current_output := newOutput }
        match env.getObservation s' with
        | .error e => .error e
        | .ok observation =>
          .ok { observation := observation
                reward := r.1
                terminated := terminated
                truncated := truncated
                info :=
                  { load := current_load
                    generation := total_generation
                    cost := r.2.cost
                    gap := r.2.gap
                    step_reward := r.2.step_reward
                    ramping := r.2.ramping
                    overload := r.2.overload }
                state := s' }

/-- The start-offset logic of `reset` (lines 93-98).  In `'train'` mode the
offset comes from `np.random.randint(0, self.max_steps - 24)`, a draw from
the process-global numpy RNG; the state of that global source is abstracted
as `globalDraw`, reduced into the half-open valid range.  `randint` raises
`ValueError` when the range is empty.  In any other mode the offset is 0. -/
def PowerGridEnv.resetStartStep (env : PowerGridEnv) (globalDraw : ℕ) : Except PyError ℕ :=
  if env.mode = .train then
    let hi : ℤ := env.max_steps - 24
    if hi ≤ 0 then .error .valueError
    else .ok (globalDraw % hi.toNat)
  else .ok 0

/-- The pair returned by `reset`, together with the post-call state. -/
structure ResetResult where
  observation : List ℝ
  info : List (String × ℚ)
  state : GridState

/-- `PowerGridEnvironment.reset` (lines 79-106).  The `seed` argument is
forwarded to `super().reset(seed=seed)`, which seeds `self.np_random`; that
RNG is never read afterwards, so `seed` has no effect on the result.  The
start offset is taken from the process-global numpy RNG (`globalDraw`), the
outputs are set to `self.capacities * 0.5`, and `(observation, {})` is
returned. -/
noncomputable def PowerGridEnv.reset (env : PowerGridEnv) (seed : Option ℕ) (globalDraw : ℕ) :
    Except PyError ResetResult :=
  match env.resetStartStep globalDraw with
  | .error e => .error e
  | .ok startStep =>
    let s : GridState :=
      { current_step := startStep
        current_output := env.capacities.map (fun c => c * (1 / 2)) }
    match env.getObservation s with
    | .error e => .error e
    | .ok observation => .ok { observation := observation, info := [], state := s }

/-- Projection of a `step` call onto the post-call simulation state. -/
def stepStateOf : Except PyError StepResult → Option GridState
  | .ok r => some r.state
  | .error _ => none

/-- Projection of a `step` call onto its `(terminated, truncated)` flags. -/
def stepFlagsOf : Except PyError StepResult → Option (Bool × Bool)
  | .ok r => some (r.terminated, r.truncated)
  | .error _ => none

/-- Projection of a `reset` call onto the post-call simulation state. -/
def resetStateOf : Except PyError ResetResult → Option GridState
  | .ok r => some r.state
  | .error _ => none

/-- Projection of a `reset` call onto the returned `info` record. -/
def resetInfoOf : Except PyError ResetResult → Option (List (String × ℚ))
  | .ok r => some r.info
  | .error _ => none

/-- The per-generator minimum output of the registry.  The code has no
`min_output` configuration entry; the lower clamp bound in `step`
(line 131, `np.clip(self.current_output, 0, self.capacities)`) is the
constant 0 for every generator. -/
def min_output (_ : ℕ) : ℚ := 0

/-- A four-point model of IEEE-754 doubles sufficient for tracing the
non-finite action paths: a finite value, NaN, and the two infinities. -/
inductive F where
  | fin : ℚ → F
  | nan : F
  | inf : F
  | ninf : F
deriving DecidableEq

/-- Whether a float is finite (`np.isfinite`). -/
def F.isFiniteF : F → Bool
  | .fin _ => true
  | _ => false

/-- `np.maximum`: NaN-propagating elementwise maximum. -/
def F.fmax : F → F → F
  | .nan, _ => .nan
  | _, .nan => .nan
  | .inf, _ => .inf
  | _, .inf => .inf
  | .ninf, y => y
  | x, .ninf => x
  | .fin a, .fin b => .fin (max a b)

/-- `np.minimum`: NaN-propagating elementwise minimum. -/
def F.fmin : F → F → F
  | .nan, _ => .nan
  | _, .nan => .nan
  | .ninf, _ => .ninf
  | _, .ninf => .ninf
  | .inf, y => y
  | x, .inf => x
  | .fin a, .fin b => .fin (min a b)

/-- `np.clip` over floats: `minimum(maximum(x, lo), hi)`; NaN propagates,
infinities are clamped to the bounds. -/
def F.fclip (x lo hi : F) : F := F.fmin (F.fmax x lo) hi

/-- IEEE negation. -/
def F.fneg : F → F
  | .fin a => .fin (-a)
  | .nan => .nan
  | .inf => .ninf
  | .ninf => .inf

/-- IEEE addition: NaN propagates, `inf + (-inf) = NaN`. -/
def F.fadd : F → F → F
  | .nan, _ => .nan
  | _, .nan => .nan
  | .inf, .ninf => .nan
  | .ninf, .inf => .nan
  | .inf, _ => .inf
  | _, .inf => .inf
  | .ninf, _ => .ninf
  | _, .ninf => .ninf
  | .fin a, .fin b => .fin (a + b)

/-- IEEE subtraction. -/
def F.fsub (x y : F) : F := F.fadd x (F.fneg y)

/-- IEEE multiplication: NaN propagates, `inf * 0 = NaN`. -/
def F.fmul : F → F → F
  | .nan, _ => .nan
  | _, .nan => .nan
  | .fin a, .fin b => .fin (a * b)
  | .inf, .fin a => if 0 < a then .inf else if a < 0 then .ninf else .nan
  | .fin a, .inf => if 0 < a then .inf else if a < 0 then .ninf else .nan
  | .ninf, .fin a => if 0 < a then .ninf else if a < 0 then .inf else .nan
  | .fin a, .ninf => if 0 < a then .ninf else if a < 0 then .inf else .nan
  | .inf, .inf => .inf
  | .inf, .ninf => .ninf
  | .ninf, .inf => .ninf
  | .ninf, .ninf => .inf

/-- IEEE division restricted to what the embedded code needs: NaN propagates,
division of a finite value by a nonzero finite value is exact, division by
zero follows the numpy sign convention, anything finite over an infinity is
0, and `inf / inf = NaN`. -/
def F.fdiv : F → F → F
  | .nan, _ => .nan
  | _, .nan => .nan
  | .fin a, .fin b =>
    if b = 0 then (if 0 < a then .inf else if a < 0 then .ninf else .nan)
    else .fin (a / b)
  | .fin _, .inf => .fin 0
  | .fin _, .ninf => .fin 0
  | .inf, .fin b => if 0 ≤ b then .inf else .ninf
  | .ninf, .fin b => if 0 ≤ b then .ninf else .inf
  | .inf, _ => .nan
  | .ninf, _ => .nan

/-- IEEE absolute value. -/
def F.fabs : F → F
  | .fin a => .fin |a|
  | .nan => .nan
  | .inf => .inf
  | .ninf => .inf

/-- `np.sum`: left fold of IEEE addition over 0. -/
def F.fsum (l : List F) : F := l.foldl F.fadd (F.fin 0)

/-- IEEE ordered comparison `x > y`: any comparison with NaN is `False`. -/
def F.fgt : F → F → Bool
  | .nan, _ => false
  | _, .nan => false
  | .inf, .inf => false
  | .inf, _ => true
  | _, .inf => false
  | .ninf, .ninf => false
  | .ninf, _ => false
  | _, .ninf => true
  | .fin a, .fin b => decide (b < a)

/-- Lines 124-127 of `step` over the float model: clip the raw action to
`[-1, 1]` and scale by `max_ramping`. -/
def stepAdjustmentsF (max_ramping : F) (action : List F) : List F :=
  (action.map (fun a => F.fclip a (.fin (-1)) (.fin 1))).map (fun a => F.fmul a max_ramping)

/-- Lines 128-131 of `step` over the float model (shapes agreeing, so the
numpy broadcast is the elementwise case): add the adjustments and clamp to
`[0, capacities]`. -/
def stepOutputsF (capacities out adjustments : List F) : List F :=
  List.zipWith (fun x c => F.fclip x (.fin 0) c) (List.zipWith F.fadd out adjustments) capacities

/-- `_calculate_reward` (lines 201-229) over the float model.  The `gap >
0.1 * load` test uses the IEEE comparison, which is `False` whenever `gap`
is NaN. -/
def calculateRewardF (w : RewardWeights) (costs : List F) (load generation : F)
    (adjustments current_output : List F) : F :=
  let op_cost := F.fsum (List.zipWith F.fmul current_output costs)
  let gap := F.fabs (F.fsub generation load)
  let ramping_cost := F.fsum (adjustments.map F.fabs)
  let overload := if F.fgt gap (F.fmul (.fin (1 / 10)) load) then F.fmul gap (.fin 2) else .fin 0
  F.fneg (F.fadd (F.fadd (F.fadd
    (F.fmul (.fin w.generation_cost) (F.fdiv op_cost (.fin 10000)))
    (F.fmul (.fin w.supply_demand_gap) (F.fdiv gap (.fin 1000))))
    (F.fmul (.fin w.ramping_penalty) (F.fdiv ramping_cost (.fin 100))))
    (F.fmul (.fin w.overload_penalty) (F.fdiv overload (.fin 1000))))

/-- Line 189 of `_get_observation` over the float model: the normalized
generator outputs `current_output / np.max(capacities)` that enter the
returned observation vector. -/
def normOutputF (capsMax : F) (out : List F) : List F :=
  out.map (fun x => F.fdiv x capsMax)

/-- The configuration of the spec's worked example: 5 generators, capacities
`[100,100,100,100,100]`, costs `[10,30,50,0,0]`, `max_ramping = 10`, no
explicit reward weights. -/
def scenarioConfig : Config := ⟨⟨5, [100, 100, 100, 100, 100], [10, 30, 50, 0, 0], 10, none⟩⟩

/-- Environment over a demand series of length 6 (so `max_steps = 1`), in
evaluation mode. -/
def envSix : PowerGridEnv :=
  (mkPowerGridEnvironment [500, 500, 500, 500, 500, 500] scenarioConfig .test).1

/-- Environment over a demand series of length 2, in evaluation mode. -/
def envTwo : PowerGridEnv :=
  (mkPowerGridEnvironment [500, 500] scenarioConfig .test).1

/-- Environment over a demand series of length 1 (non-empty, but far shorter
than one episode plus the forecast horizon), in evaluation mode. -/
def envShortLoad : PowerGridEnv :=
  (mkPowerGridEnvironment [500] scenarioConfig .test).1

/-- Environment over an empty demand series, in evaluation mode. -/
def envEmptyLoad : PowerGridEnv :=
  (mkPowerGridEnvironment [] scenarioConfig .test).1

/-- Environment over a demand series of length 31 (so the `randint` range
`max_steps - 24 = 2` is non-empty), in training mode. -/
def envTrain : PowerGridEnv :=
  (mkPowerGridEnvironment (List.replicate 31 500) scenarioConfig .train).1

/-- Environment over a demand series of length 10, in evaluation mode. -/
def envTen : PowerGridEnv :=
  (mkPowerGridEnvironment (List.replicate 10 500) scenarioConfig .test).1

/-! ### Helper lemmas -/

/-- An index below the length makes `getItem` succeed. -/
theorem getItem_ok (l : List ℚ) (i : ℕ) (hi : i < l.length) :
    ∃ v, getItem l i = .ok v := by
  cases hq : l[i]? with
  | none =>
    have := List.getElem?_eq_none_iff.mp hq
    omega
  | some x => exact ⟨x, by simp [getItem, hq]⟩

/-- `_get_observation` succeeds whenever the current step indexes into the
demand series and the capacity array is non-empty. -/
theorem getObservation_isOk (env : PowerGridEnv) (s : GridState)
    (hs : s.current_step < env.load_data.length) (hcaps : env.capacities ≠ []) :
    ∃ o, env.getObservation s = .ok o := by
  obtain ⟨v, hgetv⟩ := getItem_ok env.load_data s.current_step hs
  have hne : env.load_data ≠ [] := by
    intro hnil
    rw [hnil] at hs
    simp at hs
  obtain ⟨lastv, hlast⟩ : ∃ x, env.load_data.getLast? = some x := by
    cases hl : env.load_data.getLast? with
    | none => exact absurd (List.getLast?_eq_none_iff.mp hl) hne
    | some x => exact ⟨x, rfl⟩
  obtain ⟨c, cs, hcs⟩ : ∃ c cs, env.capacities = c :: cs := by
    cases hc : env.capacities with
    | nil => exact absurd hc hcaps
    | cons c cs => exact ⟨c, cs, rfl⟩
  simp only [PowerGridEnv.getObservation, hgetv, lastItem, hlast, hcs, npMax]
  split
  · rename_i fE e heq
    split at heq
    · split at heq <;> simp_all
    · simp_all
  · exact ⟨_, rfl⟩

/-- In a non-training mode, `reset` succeeds on any non-empty demand series
(with a non-empty capacity array), returning offset 0, outputs at half
capacity, and an empty info record — independently of the global RNG
draw. -/
theorem reset_ok (env : PowerGridEnv) (seed : Option ℕ) (draw : ℕ)
    (hmode : env.mode ≠ .train) (hload : env.load_data ≠ []) (hcaps : env.capacities ≠ []) :
    ∃ obs, env.reset seed draw =
      .ok { observation := obs
            info := []
            state :=
              { current_step := 0
                current_output := env.capacities.map (fun c => c * (1 / 2)) } } := by
  obtain ⟨o, ho⟩ := getObservation_isOk env
    ⟨0, env.capacities.map (fun c => c * (1 / 2))⟩
    (List.length_pos.mpr hload) hcaps
  simp only [PowerGridEnv.reset, PowerGridEnv.resetStartStep, if_neg hmode, ho]
  exact ⟨o, rfl⟩

/-- A successful in-place broadcast addition preserves the length of the
target array. -/
theorem broadcastAddInPlace_length (out adjustments raw : List ℚ)
    (h : broadcastAddInPlace out adjustments = .ok raw) : raw.length = out.length := by
  unfold broadcastAddInPlace at h
  split at h
  · simp only [Except.ok.injEq] at h
    subst h
    simp [List.length_zipWith]
    omega
  · split at h
    · simp only [Except.ok.injEq] at h
      subst h
      simp
    · exact absurd h (by simp)

/-- Characterization of a successful `step`: with agreeing shapes and the
demand index for the next observation in range, `step` returns a result
whose state, flags and output vector are as computed by lines 124-143. -/
theorem step_ok_char (env : PowerGridEnv) (s : GridState) (action : List ℚ)
    (hcaps : env.capacities ≠ [])
    (hlen : env.capacities.length = s.current_output.length)
    (ha : action.length = s.current_output.length)
    (hidx : s.current_step + 1 < env.load_data.length) :
    ∃ res, env.step s action = .ok res ∧
      res.state.current_step = s.current_step + 1 ∧
      res.state.current_output =
        List.zipWith (fun x c => clip x 0 c)
          (List.zipWith (· + ·) s.current_output (stepAdjustments env action)) env.capacities ∧
      res.terminated = false ∧
      res.truncated = decide ((s.current_step + 1 : ℤ) ≥ env.max_steps) := by
  have hadj : (stepAdjustments env action).length = s.current_output.length := by
    simp [stepAdjustments, ha]
  have hb : broadcastAddInPlace s.current_output (stepAdjustments env action) =
      .ok (List.zipWith (· + ·) s.current_output (stepAdjustments env action)) := by
    unfold broadcastAddInPlace
    rw [if_pos hadj.symm]
  have hzlen : (List.zipWith (· + ·) s.current_output (stepAdjustments env action)).length =
      env.capacities.length := by
    simp [List.length_zipWith, hadj, hlen]
  have hclip : clipToCapacities
      (List.zipWith (· + ·) s.current_output (stepAdjustments env action)) env.capacities =
      .ok (List.zipWith (fun x c => clip x 0 c)
        (List.zipWith (· + ·) s.current_output (stepAdjustments env action)) env.capacities) := by
    unfold clipToCapacities
    rw [if_pos hzlen]
  have hstep : s.current_step < env.load_data.length := Nat.lt_of_succ_lt hidx
  obtain ⟨v, hgetv⟩ := getItem_ok env.load_data s.current_step hstep
  obtain ⟨o, ho⟩ := getObservation_isOk env
    ⟨s.current_step + 1,
     List.zipWith (fun x c => clip x 0 c)
       (List.zipWith (· + ·) s.current_output (stepAdjustments env action)) env.capacities⟩
    hidx hcaps
  simp only [PowerGridEnv.step, hb, hclip, hgetv, ho]
  exact ⟨_, rfl, rfl, rfl, rfl, rfl⟩

/-- Inversion of a successful `step`: the returned state and flags are the
ones computed in lines 124-143 of the source. -/
theorem step_inv (env : PowerGridEnv) (s : GridState) (action : List ℚ) (res : StepResult)
    (h : env.step s action = .ok res) :
    ∃ raw, broadcastAddInPlace s.current_output (stepAdjustments env action) = .ok raw ∧
      clipToCapacities raw env.capacities = .ok res.state.current_output ∧
      res.state.current_step = s.current_step + 1 ∧
      res.terminated = false ∧
      res.truncated = decide ((s.current_step + 1 : ℤ) ≥ env.max_steps) := by
  simp only [PowerGridEnv.step] at h
  split at h
  · simp at h
  · rename_i raw hraw
    split at h
    · simp at h
    · rename_i newOut hclip
      split at h
      · simp at h
      · rename_i load hload
        split at h
        · simp at h
        · rename_i obs hobs
          rw [Except.ok.injEq] at h
          subst h
          exact ⟨raw, hraw, hclip, rfl, rfl, rfl⟩

/-- Elementwise bounds of the constraint clamp: every entry of
`np.clip(raw, 0, caps)` lies between 0 and the matching capacity (for
non-negative capacities). -/
theorem zipWith_clip_bounds (raw caps : List ℚ) (hc : ∀ c ∈ caps, 0 ≤ c) (i : ℕ)
    (hi : i < (List.zipWith (fun x c => clip x 0 c) raw caps).length) :
    0 ≤ (List.zipWith (fun x c => clip x 0 c) raw caps).getD i 0 ∧
    (List.zipWith (fun x c => clip x 0 c) raw caps).getD i 0 ≤ caps.getD i 0 := by
  induction raw generalizing caps i with
  | nil => simp at hi
  | cons x xs ih =>
    cases caps with
    | nil => simp at hi
    | cons c cs =>
      cases i with
      | zero =>
        simp only [List.zipWith_cons_cons, List.getD_cons_zero, clip]
        exact ⟨le_min (le_max_right x 0) (hc c (List.mem_cons_self c cs)), min_le_right _ _⟩
      | succ n =>
        simp only [List.zipWith_cons_cons, List.getD_cons_succ]
        simp only [List.zipWith_cons_cons, List.length_cons] at hi
        exact ih cs (fun d hd => hc d (List.mem_cons_of_mem c hd)) n (by omega)

/-- `step` succeeds under the shape and index conditions of
`step_ok_char`. -/
theorem step_isOk (env : PowerGridEnv) (s : GridState) (action : List ℚ)
    (hcaps : env.capacities ≠ [])
    (hlen : env.capacities.length = s.current_output.length)
    (ha : action.length = s.current_output.length)
    (hidx : s.current_step + 1 < env.load_data.length) :
    (env.step s action).isOk = true := by
  obtain ⟨res, hres, -⟩ := step_ok_char env s action hcaps hlen ha hidx
  rw [hres]
  rfl

/-! ### Claim C1 -/

/-- C1: for every state and every action, when `step` returns, every
generator output satisfies `min_output[i] <= generator_outputs[i] <=
capacity[i]`, with `min_output` as given by the registry (which has lower
bound 0 for every generator, the literal lower clamp bound of line 131):
the elementwise clamp preserves the physical-bounds invariant. -/
theorem step_preserves_generator_bounds (env : PowerGridEnv) (s : GridState)
    (action : List ℚ) (s' : GridState)
    (hcap : ∀ c ∈ env.capacities, 0 ≤ c)
    (hlen : env.capacities.length = s.current_output.length)
    (h : stepStateOf (env.step s action) = some s') :
    ∀ i, i < s'.current_output.length →
      min_output i ≤ s'.current_output.getD i 0 ∧
      s'.current_output.getD i 0 ≤ env.capacities.getD i 0 := by
  cases hstep : env.step s action with
  | error e => rw [hstep] at h; simp [stepStateOf] at h
  | ok res =>
    rw [hstep] at h
    simp only [stepStateOf, Option.some.injEq] at h
    obtain ⟨raw, hraw, hclip, -, -, -⟩ := step_inv env s action res hstep
    have hrawlen := broadcastAddInPlace_length _ _ _ hraw
    have hcl : raw.length = env.capacities.length := by rw [hrawlen, hlen]
    have hred : clipToCapacities raw env.capacities =
        .ok (List.zipWith (fun x c => clip x 0 c) raw env.capacities) := by
      unfold clipToCapacities
      rw [if_pos hcl]
    rw [hred] at hclip
    rw [Except.ok.injEq] at hclip
    subst h
    rw [← hclip]
    intro i hi
    simpa [min_output] using zipWith_clip_bounds raw env.capacities hcap i hi

/-- Witness for C1 at the worked scenario: stepping `[50,50,50,50,50]` with
action `[1,1,-1,-1,0]` in `envTwo` gives the state `⟨1, [60,60,40,40,50]⟩`,
whose entries obey the bounds. -/
theorem step_preserves_generator_bounds_witness :
    min_output 0 ≤ (GridState.mk 1 [60, 60, 40, 40, 50]).current_output.getD 0 0 ∧
    (GridState.mk 1 [60, 60, 40, 40, 50]).current_output.getD 0 0 ≤
      envTwo.capacities.getD 0 0 :=
  step_preserves_generator_bounds envTwo ⟨0, [50, 50, 50, 50, 50]⟩ [1, 1, -1, -1, 0]
    ⟨1, [60, 60, 40, 40, 50]⟩
    (by norm_num [envTwo, mkPowerGridEnvironment, scenarioConfig])
    (by norm_num [envTwo, mkPowerGridEnvironment, scenarioConfig])
    (by norm_num [stepStateOf, PowerGridEnv.step, stepAdjustments, broadcastAddInPlace,
      clipToCapacities, getItem, PowerGridEnv.getObservation, lastItem, npMax,
      PowerGridEnv.calculateReward, calculateRewardCore, clip,
      envTwo, mkPowerGridEnvironment, scenarioConfig])
    0 (by norm_num)

/-! ### Claim C5 -/

/-- C5 counterexample: with a demand series of length 6 the claimed horizon
is `6 - 4 = 2`, yet the very first step from the reset offset 0 (absolute
`current_step` becomes 1, strictly below the claimed horizon) already
returns `truncated = true`, because the coded horizon is `len - 5 = 1`. -/
theorem step_truncates_before_claimed_horizon :
    resetStateOf (envSix.reset none 0) = some ⟨0, [50, 50, 50, 50, 50]⟩ ∧
    stepFlagsOf (envSix.step ⟨0, [50, 50, 50, 50, 50]⟩ [0, 0, 0, 0, 0]) = some (false, true) ∧
    ((0 : ℤ) + 1 < (6 : ℤ) - 4) := by
  refine ⟨?_, ?_, by norm_num⟩
  · norm_num [resetStateOf, PowerGridEnv.reset, PowerGridEnv.resetStartStep,
      PowerGridEnv.getObservation, getItem, lastItem, npMax,
      envSix, mkPowerGridEnvironment, scenarioConfig,
      (by decide : ¬ (Mode.test = Mode.train))]
  · norm_num [stepFlagsOf, PowerGridEnv.step, stepAdjustments, broadcastAddInPlace,
      clipToCapacities, getItem, PowerGridEnv.getObservation, lastItem, npMax,
      PowerGridEnv.calculateReward, calculateRewardCore, clip,
      envSix, mkPowerGridEnvironment, scenarioConfig]

/-- C5 (amended): for every environment built by the constructor, whenever
`step` returns, `terminated` is false and `truncated` is true exactly when
the absolute `current_step` after the step reaches `max_steps =
len(load_data) - 5` (the series length minus the forecast horizon minus
one) — an absolute threshold, not one counted from the reset offset. -/
theorem step_truncation_law (load_data : List ℚ) (config : Config) (mode : Mode)
    (s : GridState) (action : List ℚ) (flags : Bool × Bool)
    (h : stepFlagsOf ((mkPowerGridEnvironment load_data config mode).1.step s action) =
      some flags) :
    flags.1 = false ∧
    (flags.2 = true ↔ (s.current_step : ℤ) + 1 ≥ (load_data.length : ℤ) - 5) := by
  cases hstep : (mkPowerGridEnvironment load_data config mode).1.step s action with
  | error e => rw [hstep] at h; simp [stepFlagsOf] at h
  | ok res =>
    rw [hstep] at h
    simp only [stepFlagsOf, Option.some.injEq] at h
    obtain ⟨-, -, -, -, hterm, htrunc⟩ := step_inv _ _ _ _ hstep
    subst h
    refine ⟨hterm, ?_⟩
    rw [htrunc]
    have hms : (mkPowerGridEnvironment load_data config mode).1.max_steps =
        (load_data.length : ℤ) - 5 := rfl
    rw [hms]
    simp only [ge_iff_le, decide_eq_true_eq]

/-- Witness for C5 (amended): an early step in a length-10 series is not
truncated, matching `0 + 1 < 10 - 5`. -/
theorem step_truncation_law_witness :
    (false, false).1 = false ∧
    ((false, false).2 = true ↔ ((0 : ℕ) : ℤ) + 1 ≥ ((List.replicate 10 (500 : ℚ)).length : ℤ) - 5) :=
  step_truncation_law (List.replicate 10 500) scenarioConfig .test
    ⟨0, [50, 50, 50, 50, 50]⟩ [0, 0, 0, 0, 0] (false, false)
    (by norm_num [stepFlagsOf, PowerGridEnv.step, stepAdjustments, broadcastAddInPlace,
      clipToCapacities, getItem, PowerGridEnv.getObservation, lastItem, npMax,
      PowerGridEnv.calculateReward, calculateRewardCore, clip,
      mkPowerGridEnvironment, scenarioConfig, List.replicate])

/-! ### Claim C6 -/

/-- In training mode with a non-empty `randint` range, `reset` succeeds and
its start offset is the reduced global draw — the `seed` argument plays no
role. -/
theorem reset_train_ok (env : PowerGridEnv) (seed : Option ℕ) (draw : ℕ)
    (hmode : env.mode = .train) (hhi : 0 < env.max_steps - 24)
    (hs : draw % (env.max_steps - 24).toNat < env.load_data.length)
    (hcaps : env.capacities ≠ []) :
    ∃ obs, env.reset seed draw =
      .ok { observation := obs
            info := []
            state :=
              { current_step := draw % (env.max_steps - 24).toNat
                current_output := env.capacities.map (fun c => c * (1 / 2)) } } := by
  obtain ⟨o, ho⟩ := getObservation_isOk env
    ⟨draw % (env.max_steps - 24).toNat, env.capacities.map (fun c => c * (1 / 2))⟩ hs hcaps
  simp only [PowerGridEnv.reset, PowerGridEnv.resetStartStep, if_pos hmode,
    if_neg (not_le.mpr hhi), ho]
  exact ⟨o, rfl⟩

/-- C6 counterexample: in training mode, two `reset` calls with the same
seed but different states of the process-global numpy RNG return different
start offsets, so the start offset is not determined by the seed. -/
theorem train_reset_depends_on_global_rng :
    resetStateOf (envTrain.reset (some 123) 0) ≠ resetStateOf (envTrain.reset (some 123) 1) := by
  obtain ⟨o0, h0⟩ := reset_train_ok envTrain (some 123) 0 rfl (by decide) (by decide) (by decide)
  obtain ⟨o1, h1⟩ := reset_train_ok envTrain (some 123) 1 rfl (by decide) (by decide) (by decide)
  rw [h0, h1]
  simp [resetStateOf, GridState.mk.injEq, envTrain, mkPowerGridEnvironment, scenarioConfig]

/-- C6 (amended): with `mode ≠ train` and a fixed seed, two independent
`reset` calls (distinct global RNG states) return identical results, and
the start offset is always 0; in training mode, the offset instead follows
the process-global numpy draw, which the seed does not determine. -/
theorem reset_determinism_non_train (env : PowerGridEnv) (seed : Option ℕ) (d1 d2 : ℕ)
    (hmode : env.mode ≠ .train) :
    env.reset seed d1 = env.reset seed d2 ∧ env.resetStartStep d1 = .ok 0 := by
  constructor
  · simp only [PowerGridEnv.reset, PowerGridEnv.resetStartStep, if_neg hmode]
  · simp only [PowerGridEnv.resetStartStep, if_neg hmode]

/-- Witness for C6 (amended) on `envTen` (test mode). -/
theorem reset_determinism_non_train_witness :
    envTen.reset (some 7) 0 = envTen.reset (some 7) 5 ∧
    envTen.resetStartStep 0 = .ok 0 :=
  reset_determinism_non_train envTen (some 7) 0 5 (by decide)

/-! ### Claim C4 -/

/-- C4 counterexample: a demand series of length 1 is shorter than one full
episode plus the forecast horizon, yet `reset` succeeds (no
`ConfigurationError` — no such error exists anywhere in the code). -/
theorem reset_succeeds_on_short_series :
    (envShortLoad.reset none 0).isOk = true := by
  obtain ⟨o, ho⟩ := reset_ok envShortLoad none 0 (by decide) (by decide) (by decide)
  rw [ho]
  rfl

/-- C4 (amended): `reset` performs no length validation and no
`ConfigurationError` exists.  In a non-training mode: on an empty demand
series it fails with an `IndexError` raised while building the initial
observation; on any non-empty series — however short — it succeeds and
returns the initial observation together with an empty diagnostics
record. -/
theorem reset_no_length_validation (env : PowerGridEnv) (seed : Option ℕ) (draw : ℕ)
    (hmode : env.mode ≠ .train) (hcaps : env.capacities ≠ []) :
    (env.load_data = [] → env.reset seed draw = .error .indexError) ∧
    (env.load_data ≠ [] →
      (env.reset seed draw).isOk = true ∧ resetInfoOf (env.reset seed draw) = some []) := by
  constructor
  · intro hnil
    simp [PowerGridEnv.reset, PowerGridEnv.resetStartStep, if_neg hmode,
      PowerGridEnv.getObservation, getItem, hnil]
  · intro hne
    obtain ⟨o, ho⟩ := reset_ok env seed draw hmode hne hcaps
    rw [ho]
    exact ⟨rfl, rfl⟩

/-- Witness for C4 (amended): the empty series fails with `IndexError`; the
length-1 series succeeds with an empty info record. -/
theorem reset_no_length_validation_witness :
    (envEmptyLoad.reset none 0 = .error .indexError) ∧
    ((envShortLoad.reset none 0).isOk = true ∧
      resetInfoOf (envShortLoad.reset none 0) = some []) :=
  ⟨(reset_no_length_validation envEmptyLoad none 0 (by decide) (by decide)).1 rfl,
   (reset_no_length_validation envShortLoad none 0 (by decide) (by decide)).2 (by decide)⟩

/-! ### More step helpers -/

/-- A length-1 adjustment array always broadcasts successfully into the
in-place addition, preserving the target length. -/
theorem broadcastAddInPlace_singleton (out : List ℚ) (a : ℚ) :
    ∃ raw, broadcastAddInPlace out [a] = .ok raw ∧ raw.length = out.length := by
  unfold broadcastAddInPlace
  by_cases h : out.length = ([a] : List ℚ).length
  · rw [if_pos h]
    refine ⟨_, rfl, ?_⟩
    simp only [List.length_singleton] at h
    simp [List.length_zipWith, h]
  · rw [if_neg h]
    exact ⟨_, rfl, by simp⟩

/-- An adjustment array that matches neither the target length nor length 1
makes the in-place addition fail with the broadcasting `ValueError`. -/
theorem broadcastAddInPlace_error (out adjustments : List ℚ)
    (hne : out.length ≠ adjustments.length) (h1 : adjustments.length ≠ 1) :
    broadcastAddInPlace out adjustments = .error .valueError := by
  unfold broadcastAddInPlace
  rw [if_neg hne]
  match adjustments, h1 with
  | [], _ => rfl
  | [a], h1 => exact absurd rfl h1
  | a :: b :: t, _ => rfl

/-- `step` succeeds whenever the in-place addition broadcast succeeds, the
capacity array is non-empty and aligned, and the next observation index is
in range. -/
theorem step_isOk_of_broadcast (env : PowerGridEnv) (s : GridState) (action : List ℚ)
    (raw : List ℚ)
    (hcaps : env.capacities ≠ [])
    (hraw : broadcastAddInPlace s.current_output (stepAdjustments env action) = .ok raw)
    (hclen : env.capacities.length = raw.length)
    (hidx : s.current_step + 1 < env.load_data.length) :
    (env.step s action).isOk = true := by
  have hclip : clipToCapacities raw env.capacities =
      .ok (List.zipWith (fun x c => clip x 0 c) raw env.capacities) := by
    unfold clipToCapacities
    rw [if_pos hclen.symm]
  obtain ⟨v, hgetv⟩ := getItem_ok env.load_data s.current_step (Nat.lt_of_succ_lt hidx)
  obtain ⟨o, ho⟩ := getObservation_isOk env
    ⟨s.current_step + 1, List.zipWith (fun x c => clip x 0 c) raw env.capacities⟩ hidx hcaps
  simp only [PowerGridEnv.step, hraw, hclip, hgetv, ho]
  rfl

/-! ### Claim C9 -/

/-- C9 counterexample: `step` called on the zero-initialized constructor
state — before any `reset` — returns a normal tuple, and `step` called again
on the state left by a truncating step (`current_step = 1 = max_steps` in
`envSix`) also returns a normal tuple; neither fails fast. -/
theorem step_no_fail_fast_counterexample :
    ((mkPowerGridEnvironment [500, 500, 500, 500, 500, 500] scenarioConfig .test).1.step
      (mkPowerGridEnvironment [500, 500, 500, 500, 500, 500] scenarioConfig .test).2
      [0, 0, 0, 0, 0]).isOk = true ∧
    (envSix.step ⟨1, [50, 50, 50, 50, 50]⟩ [0, 0, 0, 0, 0]).isOk = true :=
  ⟨step_isOk _ _ _ (by decide) (by decide) (by decide) (by decide),
   step_isOk _ _ _ (by decide) (by decide) (by decide) (by decide)⟩

/-- C9 (amended): `step` performs no usage-state validation.  Both on the
zero-initialized constructor state (no `reset` has happened) and on any
state whose `current_step` already reached the truncation threshold (the
state left behind by a truncating step), `step` silently advances and
returns a normal `(observation, reward, flags, info)` tuple, as long as the
demand index stays in range. -/
theorem step_no_fail_fast (load_data : List ℚ) (config : Config) (mode : Mode)
    (action : List ℚ) (s : GridState)
    (husage : s = (mkPowerGridEnvironment load_data config mode).2 ∨
      (s.current_step : ℤ) ≥ (mkPowerGridEnvironment load_data config mode).1.max_steps)
    (hcaps : (mkPowerGridEnvironment load_data config mode).1.capacities ≠ [])
    (hclen : (mkPowerGridEnvironment load_data config mode).1.capacities.length =
      s.current_output.length)
    (ha : action.length = s.current_output.length)
    (hidx : s.current_step + 1 < load_data.length) :
    ((mkPowerGridEnvironment load_data config mode).1.step s action).isOk = true :=
  step_isOk _ s action hcaps hclen ha hidx

/-- Witness for C9 (amended): stepping the constructor state of a length-6
series returns a normal tuple. -/
theorem step_no_fail_fast_witness :
    ((mkPowerGridEnvironment [500, 500, 500, 500, 500, 500] scenarioConfig .test).1.step
      ⟨0, List.replicate 5 0⟩ [0, 0, 0, 0, 0]).isOk = true :=
  step_no_fail_fast [500, 500, 500, 500, 500, 500] scenarioConfig .test [0, 0, 0, 0, 0]
    ⟨0, List.replicate 5 0⟩ (Or.inl (by decide)) (by decide) (by decide) (by decide) (by decide)

/-! ### Claim C3 -/

/-- C3 counterexample: with 5 generators, a length-1 action does not raise
any error — numpy broadcasting silently applies the single adjustment to
every generator — contradicting that every wrong-length action fails with
`InvalidActionError` (a class that does not exist in the code). -/
theorem step_silently_broadcasts_length_one_action :
    (envTwo.step ⟨0, [50, 50, 50, 50, 50]⟩ [1]).isOk = true := by
  obtain ⟨raw, hraw, hrlen⟩ :=
    broadcastAddInPlace_singleton [50, 50, 50, 50, 50] (clip 1 (-1) 1 * envTwo.max_ramping)
  exact step_isOk_of_broadcast envTwo ⟨0, [50, 50, 50, 50, 50]⟩ [1] raw (by decide) hraw
    (by rw [hrlen]; decide) (by decide)

/-- C3 (amended): `step` has no explicit shape validation and no
`InvalidActionError` exists.  An action whose length is neither
`num_generators` nor 1 makes the in-place numpy addition fail with a
broadcasting `ValueError`; an action of the correct length raises no error;
and a length-1 action silently broadcasts and also raises no error. -/
theorem step_action_length_handling (env : PowerGridEnv) (s : GridState) (action : List ℚ)
    (hng : s.current_output.length = env.num_generators)
    (hcaps : env.capacities ≠ [])
    (hclen : env.capacities.length = s.current_output.length)
    (hidx : s.current_step + 1 < env.load_data.length) :
    (action.length ≠ env.num_generators → action.length ≠ 1 →
      env.step s action = .error .valueError) ∧
    (action.length = env.num_generators → (env.step s action).isOk = true) ∧
    (action.length = 1 → (env.step s action).isOk = true) := by
  have hadjlen : (stepAdjustments env action).length = action.length := by
    simp [stepAdjustments]
  refine ⟨?_, ?_, ?_⟩
  · intro hne h1
    have hb : broadcastAddInPlace s.current_output (stepAdjustments env action) =
        .error .valueError := by
      apply broadcastAddInPlace_error
      · rw [hadjlen, hng]
        exact fun hcontra => hne hcontra.symm
      · rw [hadjlen]
        exact h1
    simp only [PowerGridEnv.step, hb]
  · intro heq
    exact step_isOk env s action hcaps hclen (by rw [heq, hng]) hidx
  · intro h1
    obtain ⟨x, hx⟩ := List.length_eq_one.mp h1
    subst hx
    have hadj : stepAdjustments env [x] = [clip x (-1) 1 * env.max_ramping] := rfl
    obtain ⟨raw, hraw, hrlen⟩ :=
      broadcastAddInPlace_singleton s.current_output (clip x (-1) 1 * env.max_ramping)
    exact step_isOk_of_broadcast env s [x] raw hcaps (by rw [hadj]; exact hraw)
      (by rw [hrlen, hclen]) hidx

/-- Witness for C3 (amended), instantiated with a length-3 action against 5
generators: the mismatch case fires with `ValueError`; the other two cases
hold vacuously. -/
theorem step_action_length_handling_witness :
    (([1, 1, 1] : List ℚ).length ≠ envTwo.num_generators → ([1, 1, 1] : List ℚ).length ≠ 1 →
      envTwo.step ⟨0, [50, 50, 50, 50, 50]⟩ [1, 1, 1] = .error .valueError) ∧
    (([1, 1, 1] : List ℚ).length = envTwo.num_generators →
      (envTwo.step ⟨0, [50, 50, 50, 50, 50]⟩ [1, 1, 1]).isOk = true) ∧
    (([1, 1, 1] : List ℚ).length = 1 →
      (envTwo.step ⟨0, [50, 50, 50, 50, 50]⟩ [1, 1, 1]).isOk = true) :=
  step_action_length_handling envTwo ⟨0, [50, 50, 50, 50, 50]⟩ [1, 1, 1]
    (by decide) (by decide) (by decide) (by decide)

/-! ### Claim C8 -/

/-- C8: in the worked scenario (5 generators, capacities all 100, costs
`[10,30,50,0,0]`, `max_ramping = 10`), over any demand series of length at
least 2 in evaluation mode: `reset` initializes the outputs to
`[50,50,50,50,50]`; the action `[1,1,-1,-1,0]` produces the adjustments
`[10,10,-10,-10,0]`; and the post-clamp outputs after `step` are
`[60,60,40,40,50]`. -/
theorem scenario_reset_step_outputs (load_data : List ℚ) (h2 : 2 ≤ load_data.length) :
    stepAdjustments (mkPowerGridEnvironment load_data scenarioConfig .test).1
      [1, 1, -1, -1, 0] = [10, 10, -10, -10, 0] ∧
    ∃ r0, (mkPowerGridEnvironment load_data scenarioConfig .test).1.reset none 0 = .ok r0 ∧
      r0.state.current_output = [50, 50, 50, 50, 50] ∧
      ∃ r1, (mkPowerGridEnvironment load_data scenarioConfig .test).1.step r0.state
          [1, 1, -1, -1, 0] = .ok r1 ∧
        r1.state.current_output = [60, 60, 40, 40, 50] := by
  have hne : load_data ≠ [] := by
    intro h
    rw [h] at h2
    simp at h2
  constructor
  · norm_num [stepAdjustments, mkPowerGridEnvironment, scenarioConfig, clip]
  · obtain ⟨o, ho⟩ := reset_ok (mkPowerGridEnvironment load_data scenarioConfig .test).1
      none 0 (by simp [mkPowerGridEnvironment, scenarioConfig]) hne
      (by simp [mkPowerGridEnvironment, scenarioConfig])
    refine ⟨_, ho, ?_, ?_⟩
    · norm_num [mkPowerGridEnvironment, scenarioConfig]
    · obtain ⟨r1, hr1, -, hout, -, -⟩ := step_ok_char
        (mkPowerGridEnvironment load_data scenarioConfig .test).1
        ⟨0, (mkPowerGridEnvironment load_data scenarioConfig .test).1.capacities.map
          (fun c => c * (1 / 2))⟩
        [1, 1, -1, -1, 0] (by simp [mkPowerGridEnvironment, scenarioConfig])
        (by simp [mkPowerGridEnvironment, scenarioConfig])
        (by simp [mkPowerGridEnvironment, scenarioConfig])
        (by simp only [mkPowerGridEnvironment]; omega)
      refine ⟨r1, hr1, ?_⟩
      rw [hout]
      norm_num [stepAdjustments, mkPowerGridEnvironment, scenarioConfig, clip]

/-- Witness for C8 on the concrete demand series `[500, 500]`. -/
theorem scenario_reset_step_outputs_witness :
    2 ≤ ([500, 500] : List ℚ).length ∧
    (stepAdjustments (mkPowerGridEnvironment [500, 500] scenarioConfig .test).1
      [1, 1, -1, -1, 0] = [10, 10, -10, -10, 0] ∧
    ∃ r0, (mkPowerGridEnvironment [500, 500] scenarioConfig .test).1.reset none 0 = .ok r0 ∧
      r0.state.current_output = [50, 50, 50, 50, 50] ∧
      ∃ r1, (mkPowerGridEnvironment [500, 500] scenarioConfig .test).1.step r0.state
          [1, 1, -1, -1, 0] = .ok r1 ∧
        r1.state.current_output = [60, 60, 40, 40, 50]) :=
  ⟨by decide, scenario_reset_step_outputs [500, 500] (by decide)⟩

/-! ### Claim C7 -/

/-- The dot product of two elementwise non-negative vectors, as summed by
`np.sum(current_output * self.costs)`, is non-negative. -/
theorem sum_zipWith_mul_nonneg : ∀ (xs ys : List ℚ),
    (∀ x ∈ xs, 0 ≤ x) → (∀ y ∈ ys, 0 ≤ y) → 0 ≤ (List.zipWith (· * ·) xs ys).sum
  | [], _, _, _ => by simp
  | _ :: _, [], _, _ => by simp
  | x :: xs, y :: ys, hx, hy => by
    simp only [List.zipWith_cons_cons, List.sum_cons]
    exact add_nonneg
      (mul_nonneg (hx x (List.mem_cons_self x xs)) (hy y (List.mem_cons_self y ys)))
      (sum_zipWith_mul_nonneg xs ys (fun a ha => hx a (List.mem_cons_of_mem _ ha))
        (fun b hb => hy b (List.mem_cons_of_mem _ hb)))

/-- C7 counterexample: the claim's hypotheses allow all-zero (non-negative)
reward weights, and then the reward is 0 while the operating cost is 500,
so "reward = 0 only when all four components are zero" fails as stated. -/
theorem reward_zero_with_nonzero_cost :
    (calculateRewardCore ⟨0, 0, 0, 0⟩ [10] 50 50 [0] [50]).1 = 0 ∧
    (calculateRewardCore ⟨0, 0, 0, 0⟩ [10] 50 50 [0] [50]).2.cost = 500 := by
  norm_num [calculateRewardCore]

/-- C7 (amended): for every feasible transition (non-negative load, costs,
outputs and weights) the reward of the Reward Engine is (finite, being a
rational) and ≤ 0; and when all four weights are strictly positive, it is 0
only when operating cost, supply/demand gap, ramping cost and overload
penalty are all zero. -/
theorem reward_nonpositive (w : RewardWeights) (costs : List ℚ) (load generation : ℚ)
    (adjustments current_output : List ℚ)
    (hload : 0 ≤ load)
    (hcosts : ∀ c ∈ costs, 0 ≤ c)
    (hout : ∀ x ∈ current_output, 0 ≤ x)
    (hw1 : 0 ≤ w.generation_cost) (hw2 : 0 ≤ w.supply_demand_gap)
    (hw3 : 0 ≤ w.ramping_penalty) (hw4 : 0 ≤ w.overload_penalty) :
    (calculateRewardCore w costs load generation adjustments current_output).1 ≤ 0 ∧
    (0 < w.generation_cost → 0 < w.supply_demand_gap → 0 < w.ramping_penalty →
      0 < w.overload_penalty →
      (calculateRewardCore w costs load generation adjustments current_output).1 = 0 →
      (calculateRewardCore w costs load generation adjustments current_output).2.cost = 0 ∧
      (calculateRewardCore w costs load generation adjustments current_output).2.gap = 0 ∧
      (calculateRewardCore w costs load generation adjustments current_output).2.ramping = 0 ∧
      (calculateRewardCore w costs load generation adjustments current_output).2.overload = 0) := by
  have hop : 0 ≤ (List.zipWith (· * ·) current_output costs).sum :=
    sum_zipWith_mul_nonneg current_output costs hout hcosts
  have hgap : 0 ≤ |generation - load| := abs_nonneg _
  have hramp : 0 ≤ (adjustments.map (fun a => |a|)).sum := by
    apply List.sum_nonneg
    intro x hx
    obtain ⟨a, -, rfl⟩ := List.mem_map.mp hx
    exact abs_nonneg a
  have hover : 0 ≤ (if |generation - load| > 1 / 10 * load
      then |generation - load| * 2 else 0) := by
    split
    · exact mul_nonneg hgap (by norm_num)
    · exact le_refl 0
  have ht1 : 0 ≤ w.generation_cost * ((List.zipWith (· * ·) current_output costs).sum / 10000) :=
    mul_nonneg hw1 (div_nonneg hop (by norm_num))
  have ht2 : 0 ≤ w.supply_demand_gap * (|generation - load| / 1000) :=
    mul_nonneg hw2 (div_nonneg hgap (by norm_num))
  have ht3 : 0 ≤ w.ramping_penalty * ((adjustments.map (fun a => |a|)).sum / 100) :=
    mul_nonneg hw3 (div_nonneg hramp (by norm_num))
  have ht4 : 0 ≤ w.overload_penalty *
      ((if |generation - load| > 1 / 10 * load then |generation - load| * 2 else 0) / 1000) :=
    mul_nonneg hw4 (div_nonneg hover (by norm_num))
  simp only [calculateRewardCore]
  constructor
  · linarith
  · intro hp1 hp2 hp3 hp4 hzero
    have e1 : w.generation_cost * ((List.zipWith (· * ·) current_output costs).sum / 10000)
        = 0 := by linarith
    have e2 : w.supply_demand_gap * (|generation - load| / 1000) = 0 := by linarith
    have e3 : w.ramping_penalty * ((adjustments.map (fun a => |a|)).sum / 100) = 0 := by
      linarith
    have e4 : w.overload_penalty *
        ((if |generation - load| > 1 / 10 * load then |generation - load| * 2 else 0) / 1000)
        = 0 := by linarith
    refine ⟨?_, ?_, ?_, ?_⟩
    · rcases mul_eq_zero.mp e1 with h | h
      · exact absurd h hp1.ne'
      · rcases div_eq_zero_iff.mp h with h' | h'
        · exact h'
        · norm_num at h'
    · rcases mul_eq_zero.mp e2 with h | h
      · exact absurd h hp2.ne'
      · rcases div_eq_zero_iff.mp h with h' | h'
        · exact h'
        · norm_num at h'
    · rcases mul_eq_zero.mp e3 with h | h
      · exact absurd h hp3.ne'
      · rcases div_eq_zero_iff.mp h with h' | h'
        · exact h'
        · norm_num at h'
    · rcases mul_eq_zero.mp e4 with h | h
      · exact absurd h hp4.ne'
      · rcases div_eq_zero_iff.mp h with h' | h'
        · exact h'
        · norm_num at h'

/-- Witness for C7 (amended) with the default weights at a balanced
feasible transition. -/
theorem reward_nonpositive_witness :
    (calculateRewardCore defaultRewardWeights [10] 100 100 [0] [50]).1 ≤ 0 ∧
    (0 < defaultRewardWeights.generation_cost → 0 < defaultRewardWeights.supply_demand_gap →
      0 < defaultRewardWeights.ramping_penalty → 0 < defaultRewardWeights.overload_penalty →
      (calculateRewardCore defaultRewardWeights [10] 100 100 [0] [50]).1 = 0 →
      (calculateRewardCore defaultRewardWeights [10] 100 100 [0] [50]).2.cost = 0 ∧
      (calculateRewardCore defaultRewardWeights [10] 100 100 [0] [50]).2.gap = 0 ∧
      (calculateRewardCore defaultRewardWeights [10] 100 100 [0] [50]).2.ramping = 0 ∧
      (calculateRewardCore defaultRewardWeights [10] 100 100 [0] [50]).2.overload = 0) :=
  reward_nonpositive defaultRewardWeights [10] 100 100 [0] [50]
    (by norm_num) (by norm_num) (by norm_num)
    (by norm_num [defaultRewardWeights]) (by norm_num [defaultRewardWeights])
    (by norm_num [defaultRewardWeights]) (by norm_num [defaultRewardWeights])

/-! ### Claim C10 -/

/-- C10: a config whose environment section has no `reward_weights` key
still constructs (the model's constructor is total, mirroring the `.get`
read): the default weights are substituted, and the environment's reward
function is exactly `_calculate_reward` with those defaults. -/
theorem default_weights_when_config_missing (load_data : List ℚ) (config : Config)
    (mode : Mode) (h : config.environment.reward_weights = none) :
    (mkPowerGridEnvironment load_data config mode).1.reward_weights = defaultRewardWeights ∧
    (mkPowerGridEnvironment load_data config mode).1.calculateReward =
      calculateRewardCore defaultRewardWeights config.environment.generator_costs := by
  constructor
  · simp [mkPowerGridEnvironment, h]
  · funext l g a o
    simp [PowerGridEnv.calculateReward, mkPowerGridEnvironment, h]

/-- Witness for C10 on `scenarioConfig`, whose `reward_weights` entry is
absent. -/
theorem default_weights_when_config_missing_witness :
    (mkPowerGridEnvironment [500] scenarioConfig .test).1.reward_weights =
      defaultRewardWeights ∧
    (mkPowerGridEnvironment [500] scenarioConfig .test).1.calculateReward =
      calculateRewardCore defaultRewardWeights scenarioConfig.environment.generator_costs :=
  default_weights_when_config_missing [500] scenarioConfig .test rfl

/-! ### Claim C2 -/

/-- C2: tracing `step` on a NaN action in the float model.  `np.clip`
propagates NaN (`minimum`/`maximum` are NaN-propagating), so with 1
generator (capacity 100, cost 10, `max_ramping` 10, load 500, output 50)
and action `[NaN]`: the post-clamp output vector is `[NaN]`, the reward of
`_calculate_reward` is NaN, and the normalized-output slice of the returned
observation contains a non-finite entry — the code does not sanitize NaN
and returns non-finite values, contradicting the claim (and the repo's own
`test_nan_action_handling`, which asserts a finite observation). -/
theorem nan_action_propagates :
    stepOutputsF [F.fin 100] [F.fin 50] (stepAdjustmentsF (F.fin 10) [F.nan]) = [F.nan] ∧
    calculateRewardF defaultRewardWeights [F.fin 10] (F.fin 500)
      (F.fsum (stepOutputsF [F.fin 100] [F.fin 50] (stepAdjustmentsF (F.fin 10) [F.nan])))
      (stepAdjustmentsF (F.fin 10) [F.nan])
      (stepOutputsF [F.fin 100] [F.fin 50] (stepAdjustmentsF (F.fin 10) [F.nan])) = F.nan ∧
    (normOutputF (F.fin 100)
      (stepOutputsF [F.fin 100] [F.fin 50] (stepAdjustmentsF (F.fin 10) [F.nan]))).any
      (fun x => !x.isFiniteF) = true := by
  decide

end PowerGrid
